import Mathlib

/-!
Shallow embedding of the `multi_sg` literature aggregator (`src/fastapi_app.py`),
focused on the core pipeline: per-source compact extractors, the DOI/URL
normalizer, the deduplication pass, and the final sort of the "all sources"
compact mode.

Modelling conventions:
* Python `str` values are Lean `String`s; `None`-able values are `Option`s.
* Python string methods used by the source (`strip`, `lower`, `replace`,
  `[:1000]`, `"-".join`, f-string interpolation) are embedded as executable
  functions over `List Char` / `String`, mirroring CPython semantics
  (`replace` removes every non-overlapping occurrence left to right; `strip`
  trims whitespace at both ends; slicing counts code points).  `lower` is
  modelled by `Char.toLower` (ASCII case mapping), which agrees with Python on
  the ASCII data handled here.
* JSON payloads and XML lookup results are inputs: each extractor takes a
  response structure holding the transport status, the raw body text and the
  decoded fields that the Python code accesses, with `Option` at every access
  the code guards (spec §1 treats the HTTP/JSON/XML primitives as external
  collaborators).  A Python dict key that is present with value `None` is
  `some none`-style data; a missing key is `none`.
* Raising `HTTPException` is modelled by `Except HErr`.
-/

namespace MultiSG

/-! ### Python string primitives -/

/-- Whitespace test used by Python `str.strip` (ASCII fragment). -/
def isWS (c : Char) : Bool := c.isWhitespace

/-- Python `str.strip()` on a character list: drop whitespace from both ends. -/
def stripL (l : List Char) : List Char :=
  ((l.dropWhile isWS).reverse.dropWhile isWS).reverse

/-- Python `str.strip()`. -/
def stripS (s : String) : String := ⟨stripL s.data⟩

/-- Python `str.lower()` on a character list (ASCII case mapping). -/
def lowerL (l : List Char) : List Char := l.map Char.toLower

/-- Python `str.lower()`. -/
def lowerS (s : String) : String := ⟨lowerL s.data⟩

/-- One pass of Python `str.replace(pat, "")`: scan left to right, and on each
occurrence of `pat` drop it and resume after it.  The fuel argument is the
length of the scanned list, which over-approximates the number of steps; the
`0` case is unreachable for the supplied fuel and nonempty `pat`. -/
def replFuel (pat : List Char) : Nat → List Char → List Char
  | _, [] => []
  | 0, l => l
  | n + 1, c :: cs =>
    if pat.isPrefixOf (c :: cs) then replFuel pat n (List.drop pat.length (c :: cs))
    else c :: replFuel pat n cs

/-- Python `s.replace(pat, "")` on character lists (for nonempty `pat`,
as the source always uses it). -/
def pyReplaceL (l pat : List Char) : List Char := replFuel pat l.length l

/-- Python `s.replace(pat, "")`. -/
def pyReplaceS (s pat : String) : String := ⟨pyReplaceL s.data pat.data⟩

/-- Python `s[:1000]` (slicing counts code points). -/
def pyTake1000 (s : String) : String := ⟨s.data.take 1000⟩

/-- Scan for an occurrence of `pat` anywhere in the list (used to state
properties of `replace`; `hasOcc pat l = false` means `pat` occurs nowhere). -/
def hasOcc (pat : List Char) : List Char → Bool
  | [] => pat.isEmpty
  | c :: cs => pat.isPrefixOf (c :: cs) || hasOcc pat cs

/-- The first DOI URL form recognized by `_norm_doi`. -/
def patHttps : String := "https://doi.org/"

/-- The second DOI URL form recognized by `_norm_doi`. -/
def patHttp : String := "http://doi.org/"

/-- Embedding of `_norm_doi` (fastapi_app.py lines 17-20):
`if not doi: return None`; otherwise `doi.strip().lower()` followed by
`.replace("https://doi.org/", "").replace("http://doi.org/", "")`. -/
def _norm_doi : Option String → Option String
  | none => none
  | some s =>
    if s = "" then none
    else some (pyReplaceS (pyReplaceS (lowerS (stripS s)) patHttps) patHttp)

/-! ### JSON scalar values and canonical records -/

/-- Scalar JSON values that reach a compact record's `date` field: strings
(Springer, Crossref, arXiv, PubMed and possibly DOAJ) or integers
(OpenAlex `publication_year`, possibly DOAJ `year`). -/
inductive JVal where
  | s (v : String)
  | i (v : Int)
deriving DecidableEq

/-- Python `str(·)` on a scalar JSON value. -/
def pyStrJ : JVal → String
  | .s v => v
  | .i n => toString n

/-- Python truthiness of a scalar JSON value (`""` and `0` are falsy). -/
def pyTruthyJ : JVal → Bool
  | .s v => !(v == "")
  | .i n => !(n == 0)

/-- Embedding of `str(x.get("date") or "")` in the sort key of
`search_compact` (line 143): a missing or falsy date becomes `""`. -/
def pyDateStr : Option JVal → String
  | none => ""
  | some v => if pyTruthyJ v then pyStrJ v else ""

/-- A compact record, the dict literal built by every `_compact_*` extractor.
The keys `title`, `doi`, `url`, `journal`, `date`, `source` are always present
(possibly with a `None` value, hence the `Option`s, except `source` which is
always a string literal).  The Springer extractor additionally emits an `oa`
key: `oa = none` models the key being absent from the dict, `oa = some v`
models the key present with value `v` (itself the optional `openAccess`
payload field). -/
structure Rec where
  title : Option String
  doi : Option String
  url : Option String
  journal : Option String
  date : Option JVal
  oa : Option (Option Bool)
  source : String
deriving DecidableEq

/-- Python `a or b` on optional strings, as used for fallback chains:
returns `b` whenever `a` is `None` or `""`. -/
def pyOrS (a b : Option String) : Option String :=
  match a with
  | some s => if s = "" then b else some s
  | none => b

/-- Python truthiness filter on an optional string: `None` and `""` are falsy. -/
def pyTruthyS : Option String → Option String
  | none => none
  | some s => if s = "" then none else some s

/-! ### Upstream responses and per-source extractors -/

/-- An `HTTPException(status_code, detail)`. -/
structure HErr where
  status : Nat
  detail : String
deriving DecidableEq

/-- First element of an optional list of optional strings, as in
`(it.get("title") or [None])[0]`: a missing or empty list yields `None`. -/
def firstOrNone : Option (List (Option String)) → Option String
  | none => none
  | some [] => none
  | some (x :: _) => x

/-- Springer `url` list entry (a dict with an optional `value`). -/
structure SpringerUrl where
  value : Option String
deriving DecidableEq

/-- One entry of the Springer `records` list, restricted to the keys
`_compact_springer` accesses. -/
structure SpringerItem where
  title : Option String
  doi : Option String
  url : Option (List SpringerUrl)
  publicationName : Option String
  publicationDate : Option String
  onlineDate : Option String
  openAccess : Option Bool
deriving DecidableEq

/-- Springer openaccess response: transport status, raw body, decoded
`records` list (absent key modelled by `none`). -/
structure SpringerResp where
  status : Nat
  text : String
  records : Option (List SpringerItem)
deriving DecidableEq

/-- The record literal built for one Springer item (lines 152-162); note the
extra `oa` key. -/
def springerRec (x : SpringerItem) : Rec :=
  let urlItem : SpringerUrl :=
    match x.url with
    | none => ⟨none⟩
    | some [] => ⟨none⟩
    | some (u :: _) => u
  { title := x.title
    doi := _norm_doi x.doi
    url := urlItem.value
    journal := x.publicationName
    date := (pyOrS x.publicationDate x.onlineDate).map JVal.s
    oa := some x.openAccess
    source := "springer_openaccess" }

/-- Embedding of `_compact_springer`: the missing-key configuration error of
`fetch_springer_oa`, the `_ok` status gate, then the mapping over
`js.get("records", []) or []`. -/
def _compact_springer (key : Option String) (r : SpringerResp) : Except HErr (List Rec) :=
  match pyTruthyS key with
  | none => .error ⟨500, "SPRINGER_API_KEY missing"⟩
  | some _ =>
    if r.status = 200 then .ok ((r.records.getD []).map springerRec)
    else .error ⟨r.status, pyTake1000 r.text⟩

/-- One entry of the Crossref `message.items` list.  `dateParts` is the value
of `it.get("issued", {}).get("date-parts")`; `none` covers a missing `issued`
object as well as a missing `date-parts` key. -/
structure CrossrefItem where
  title : Option (List (Option String))
  DOI : Option String
  URL : Option String
  containerTitle : Option (List (Option String))
  dateParts : Option (List (List (Option Int)))
deriving DecidableEq

/-- Crossref works response. -/
structure CrossrefResp where
  status : Nat
  text : String
  items : Option (List CrossrefItem)
deriving DecidableEq

/-- Python `"-".join(parts)`. -/
def joinDash : List String → String
  | [] => ""
  | x :: xs => xs.foldl (fun acc y => acc ++ "-" ++ y) x

/-- Python `str(i)` for an integer. -/
def intStr (n : Int) : String := toString n

/-- The `ymd` helper of `_compact_crossref` (lines 167-169):
`dp = (it.get("issued", {}).get("date-parts") or [[None]])[0]`, then
`"-".join(str(i) for i in dp if i is not None) if dp else None`. -/
def ymdM (x : Option (List (List (Option Int)))) : Option String :=
  let dp : List (Option Int) :=
    match x with
    | none => [none]
    | some [] => [none]
    | some (dp :: _) => dp
  if dp = [] then none else some (joinDash ((dp.filterMap id).map intStr))

/-- The record literal built for one Crossref item (lines 172-179). -/
def crossrefRec (it : CrossrefItem) : Rec :=
  { title := firstOrNone it.title
    doi := _norm_doi it.DOI
    url := it.URL
    journal := firstOrNone it.containerTitle
    date := (ymdM it.dateParts).map JVal.s
    oa := none
    source := "crossref" }

/-- Embedding of `_compact_crossref`. -/
def _compact_crossref (r : CrossrefResp) : Except HErr (List Rec) :=
  if r.status = 200 then .ok ((r.items.getD []).map crossrefRec)
  else .error ⟨r.status, pyTake1000 r.text⟩

/-- A DOAJ `identifier` entry. -/
structure DoajIdent where
  type : Option String
  id : Option String
deriving DecidableEq

/-- A DOAJ `link` entry. -/
structure DoajLink where
  url : Option String
deriving DecidableEq

/-- The DOAJ `journal` object. -/
structure DoajJournal where
  title : Option String
deriving DecidableEq

/-- A DOAJ `bibjson` object, restricted to the accessed keys. -/
structure DoajBib where
  title : Option String
  identifier : Option (List DoajIdent)
  link : Option (List DoajLink)
  journal : Option DoajJournal
  year : Option JVal
deriving DecidableEq

/-- One entry of the DOAJ `results` list. -/
structure DoajHit where
  bibjson : Option DoajBib
deriving DecidableEq

/-- DOAJ article-search response. -/
structure DoajResp where
  status : Nat
  text : String
  results : Option (List DoajHit)
deriving DecidableEq

/-- The DOI scan of `_compact_doaj` (lines 187-190): walk the identifier list
without breaking, so the last `doi`-typed entry wins (its `id`, even if null). -/
def doajDoiScan (ids : List DoajIdent) : Option String :=
  ids.foldl (fun acc idn => if idn.type = some "doi" then idn.id else acc) none

/-- The record literal built for one DOAJ hit (lines 185-202). -/
def doajRec (h : DoajHit) : Rec :=
  let bib : DoajBib := h.bibjson.getD ⟨none, none, none, none, none⟩
  let url : Option String :=
    match bib.link.getD [] with
    | [] => none
    | l0 :: _ => l0.url
  { title := bib.title
    doi := _norm_doi (doajDoiScan (bib.identifier.getD []))
    url := url
    journal := (bib.journal.getD ⟨none⟩).title
    date := bib.year
    oa := none
    source := "doaj" }

/-- Embedding of `_compact_doaj`. -/
def _compact_doaj (r : DoajResp) : Except HErr (List Rec) :=
  if r.status = 200 then .ok ((r.results.getD []).map doajRec)
  else .error ⟨r.status, pyTake1000 r.text⟩

/-- The OpenAlex `primary_location` object. -/
structure OALoc where
  landing_page_url : Option String
  pdf_url : Option String
deriving DecidableEq

/-- The OpenAlex `ids` object. -/
structure OAIds where
  openalex : Option String
  doi : Option String
deriving DecidableEq

/-- The OpenAlex `host_venue` object. -/
structure OAVenue where
  display_name : Option String
deriving DecidableEq

/-- One entry of the OpenAlex `results` list. -/
structure OAWork where
  title : Option String
  primary_location : Option OALoc
  ids : Option OAIds
  host_venue : Option OAVenue
  publication_year : Option Int
deriving DecidableEq

/-- OpenAlex works response. -/
structure OpenAlexResp where
  status : Nat
  text : String
  results : Option (List OAWork)
deriving DecidableEq

/-- The record literal built for one OpenAlex work (lines 208-220), with the
three-way `or` fallback for the URL. -/
def openalexRec (w : OAWork) : Rec :=
  let loc : OALoc := w.primary_location.getD ⟨none, none⟩
  let ids : OAIds := w.ids.getD ⟨none, none⟩
  { title := w.title
    doi := _norm_doi ids.doi
    url := pyOrS loc.landing_page_url (pyOrS ids.openalex loc.pdf_url)
    journal := (w.host_venue.getD ⟨none⟩).display_name
    date := w.publication_year.map JVal.i
    oa := none
    source := "openalex" }

/-- Embedding of `_compact_openalex`. -/
def _compact_openalex (r : OpenAlexResp) : Except HErr (List Rec) :=
  if r.status = 200 then .ok ((r.results.getD []).map openalexRec)
  else .error ⟨r.status, pyTake1000 r.text⟩

/-- A parsed Atom `link` element (only the `href` attribute is read). -/
structure AtomLink where
  href : Option String
deriving DecidableEq

/-- One Atom `entry` element, represented by the results of the XML lookups
`_compact_arxiv` performs on it (the ElementTree walker is an external
collaborator, spec §1).  Each field is the looked-up element: `none` when the
element is absent, `some t` when present with text `t` (itself optional,
since an empty element has `text = None`).  The `_ns` / `_raw` pairs are the
namespaced lookup and its unprefixed fallback, kept as distinct lookups
exactly as the code issues them. -/
structure ArxivEntry where
  title_ns : Option (Option String)
  title_raw : Option (Option String)
  id_ns : Option (Option String)
  id_raw : Option (Option String)
  published_ns : Option (Option String)
  published_raw : Option (Option String)
  doi_arx : Option (Option String)
  journal_ref : Option (Option String)
  link_alternate : Option AtomLink
deriving DecidableEq

/-- arXiv Atom response: status, raw body, and the two entry scans
(`root.findall("atom:entry", ns)` and the unprefixed fallback). -/
structure ArxivResp where
  status : Nat
  text : String
  entries_ns : List ArxivEntry
  entries_raw : List ArxivEntry
deriving DecidableEq

/-- The `g(path, default=None)` helper of `_compact_arxiv` (lines 237-239):
returns `el.text.strip()` when the element exists and its text is truthy,
otherwise the default `None`. -/
def gText : Option (Option String) → Option String
  | some (some t) => if t = "" then none else some (stripS t)
  | some none => none
  | none => none

/-- The record literal built for one arXiv entry (lines 240-255). -/
def arxivRec (e : ArxivEntry) : Rec :=
  { title := pyOrS (gText e.title_ns) (gText e.title_raw)
    doi := _norm_doi (gText e.doi_arx)
    url :=
      match e.link_alternate with
      | some la => la.href
      | none => pyOrS (gText e.id_ns) (gText e.id_raw)
    journal := gText e.journal_ref
    date := (pyOrS (gText e.published_ns) (gText e.published_raw)).map JVal.s
    oa := none
    source := "arxiv" }

/-- Embedding of `_compact_arxiv`: status gate, then the namespaced entry
scan with the unprefixed fallback when it yields nothing. -/
def _compact_arxiv (r : ArxivResp) : Except HErr (List Rec) :=
  if r.status = 200 then
    let entries := if r.entries_ns = [] then r.entries_raw else r.entries_ns
    .ok (entries.map arxivRec)
  else .error ⟨r.status, pyTake1000 r.text⟩

/-- A PubMed `ArticleId` element: its `IdType` attribute and text. -/
structure PMArticleId where
  idType : Option String
  text : Option String
deriving DecidableEq

/-- One `PubmedArticle` node, represented by the results of the XML lookups
`_compact_pubmed` performs on it.  `articleTitleText` is the flattened
`itertext` of the `ArticleTitle` subtree when the element exists. -/
structure PubmedArticle where
  articleTitleText : Option String
  journalTitle : Option (Option String)
  pubYear : Option (Option String)
  articleIds : List PMArticleId
  pmid : Option (Option String)
deriving DecidableEq

/-- PubMed esearch response (JSON): status, raw body and
`esearchresult.idlist`. -/
structure PMEsearch where
  status : Nat
  text : String
  idlist : Option (List String)
deriving DecidableEq

/-- PubMed efetch response (XML): status, raw body and the `PubmedArticle`
nodes. -/
structure PMEfetch where
  status : Nat
  text : String
  articles : List PubmedArticle
deriving DecidableEq

/-- The two upstream responses the PubMed leg may consume. -/
structure PubmedEnv where
  esearch : PMEsearch
  efetch : PMEfetch
deriving DecidableEq

/-- Python `f"...{x}..."` interpolation of an optional string (`None` prints
as `"None"`). -/
def pyFStrOpt : Option String → String
  | some t => t
  | none => "None"

/-- The record literal built for one `PubmedArticle` (lines 268-296). -/
def pubmedRec (a : PubmedArticle) : Rec :=
  { title := a.articleTitleText.map stripS
    doi :=
      _norm_doi
        (match a.articleIds.find? (fun idn => idn.idType == some "doi") with
         | some idn => idn.text
         | none => none)
    url :=
      match a.pmid with
      | some pm => some ("https://pubmed.ncbi.nlm.nih.gov/" ++ pyFStrOpt pm ++ "/")
      | none => none
    journal :=
      match a.journalTitle with
      | some jt => jt
      | none => none
    date :=
      (match a.pubYear with
       | some (some t) => if t = "" then none else some (JVal.s t)
       | some none => none
       | none => none)
    oa := none
    source := "pubmed" }

/-- Result of running the PubMed leg: the upstream calls it actually issued,
in order, and the outcome. -/
structure PMRun where
  calls : List String
  result : Except HErr (List Rec)

/-- Embedding of `_compact_pubmed` (lines 258-297), instrumented with the
list of upstream calls made: esearch, then — only when the identifier list is
nonempty — efetch. -/
def runCompactPubmed (env : PubmedEnv) : PMRun :=
  if env.esearch.status = 200 then
    let ids := env.esearch.idlist.getD []
    if ids = [] then ⟨["pubmed_esearch"], .ok []⟩
    else
      if env.efetch.status = 200 then
        ⟨["pubmed_esearch", "pubmed_efetch"], .ok (env.efetch.articles.map pubmedRec)⟩
      else ⟨["pubmed_esearch", "pubmed_efetch"], .error ⟨env.efetch.status, pyTake1000 env.efetch.text⟩⟩
  else ⟨["pubmed_esearch"], .error ⟨env.esearch.status, pyTake1000 env.esearch.text⟩⟩

/-- Embedding of `_compact_pubmed` proper (outcome only). -/
def _compact_pubmed (env : PubmedEnv) : Except HErr (List Rec) :=
  (runCompactPubmed env).result

/-! ### The deduplication pass (`search_compact`, lines 131-141) -/

/-- The identity key tested by `if doi:` in the loop: the re-normalized
stored DOI, with Python truthiness (`None` and `""` are falsy). -/
def doiKeyOf (it : Rec) : Option String :=
  pyTruthyS (_norm_doi it.doi)

/-- The identity key `(it.get("url") or "").strip().lower() or None`. -/
def urlKeyOf (it : Rec) : Option String :=
  pyTruthyS (some (lowerS (stripS (it.url.getD ""))))

/-- The loop state of the dedup pass: `seen_doi`, `seen_url`, `dedup`
(Python sets are modelled as lists, only membership is used). -/
structure DState where
  seen_doi : List String
  seen_url : List String
  dedup : List Rec

/-- One iteration of the dedup loop (lines 132-141): records with a truthy
normalized DOI are dropped iff the DOI was seen, otherwise the DOI is marked;
records without one are dropped iff their truthy URL key was seen, otherwise
the URL key is marked when present; the record is appended unless dropped. -/
def dedupBody (st : DState) (it : Rec) : DState :=
  match doiKeyOf it with
  | some d =>
    if d ∈ st.seen_doi then st
    else { st with seen_doi := d :: st.seen_doi, dedup := st.dedup ++ [it] }
  | none =>
    match urlKeyOf it with
    | some u =>
      if u ∈ st.seen_url then st
      else { st with seen_url := u :: st.seen_url, dedup := st.dedup ++ [it] }
    | none => { st with dedup := st.dedup ++ [it] }

/-- The dedup pass over the aggregated sequence: fold the loop body over the
records starting from empty seen-sets and an empty output. -/
def dedupPass (agg : List Rec) : List Rec :=
  (agg.foldl dedupBody ⟨[], [], []⟩).dedup

/-- Claim-side deduplication (C1), written from the spec's words as a direct
recursion over the records in encounter order, threading the two seen-sets:
a record with a canonical DOI is dropped exactly when the DOI was seen and
otherwise kept with the DOI marked; a record without one is dropped exactly
when its non-null lower-cased/trimmed URL was seen and otherwise kept with
the URL marked if present; a record with neither key is always kept. -/
def dedupSpecC1 : List String → List String → List Rec → List Rec
  | _, _, [] => []
  | seenD, seenU, it :: rest =>
    match doiKeyOf it with
    | some d =>
      if d ∈ seenD then dedupSpecC1 seenD seenU rest
      else it :: dedupSpecC1 (d :: seenD) seenU rest
    | none =>
      match urlKeyOf it with
      | some u =>
        if u ∈ seenU then dedupSpecC1 seenD seenU rest
        else it :: dedupSpecC1 seenD (u :: seenU) rest
      | none => it :: dedupSpecC1 seenD seenU rest

/-! ### The final sort (`search_compact`, line 143)

Python's `list.sort(key=f)` is a stable ascending sort by the key tuple; it
is modelled by `List.insertionSort`, which is also stable, with the pointwise
order on key tuples.  Tuples `(bool, str)` compare lexicographically, strings
by code point. -/

/-- Three-way code-point comparison of character lists (Python `str`
comparison semantics). -/
def cmpL : List Char → List Char → Ordering
  | [], [] => Ordering.eq
  | [], _ :: _ => Ordering.lt
  | _ :: _, [] => Ordering.gt
  | a :: as, b :: bs =>
    if a.toNat < b.toNat then Ordering.lt
    else if b.toNat < a.toNat then Ordering.gt
    else cmpL as bs

/-- Python `x <= y` on strings: not strictly greater. -/
def strLeB (x y : String) : Bool :=
  match cmpL x.data y.data with
  | Ordering.gt => false
  | _ => true

/-- Python `x < y` on booleans (`False < True`). -/
def bLtB (a b : Bool) : Bool := !a && b

/-- Python `x <= y` on `(bool, str)` tuples: lexicographic. -/
def pairLeB (x y : Bool × String) : Bool :=
  bLtB x.1 y.1 || (x.1 == y.1 && strLeB x.2 y.2)

/-- The sort key of line 143: `(x.get("doi") is None, str(x.get("date") or ""))`. -/
def recKey (r : Rec) : Bool × String := (r.doi.isNone, pyDateStr r.date)

/-- The sort relation induced by the key of line 143. -/
def keyLe (a b : Rec) : Prop := pairLeB (recKey a) (recKey b) = true

instance : DecidableRel keyLe :=
  fun p q => inferInstanceAs (Decidable (pairLeB (recKey p) (recKey q) = true))

/-- The final sort of the surviving records (`dedup.sort(key=...)`, line 143):
a stable ascending sort by `recKey`. -/
def compactAllSort (l : List Rec) : List Rec := List.insertionSort keyLe l

/-- The whole post-processing of the `"all"` branch: dedup, then sort. -/
def dedupAndSort (agg : List Rec) : List Rec := compactAllSort (dedupPass agg)

/-- Claim-side date coercion (C2): `str(date)` with only null mapped to `""`
(the claim's reading, with no special case for other falsy values). -/
def claimDateStr : Option JVal → String
  | none => ""
  | some v => pyStrJ v

/-- Claim-side sort key for C2. -/
def claimRecKey (r : Rec) : Bool × String := (r.doi.isNone, claimDateStr r.date)

/-- Claim-side sort relation for C2. -/
def claimKeyLe (a b : Rec) : Prop := pairLeB (claimRecKey a) (claimRecKey b) = true

instance : DecidableRel claimKeyLe :=
  fun p q => inferInstanceAs (Decidable (pairLeB (claimRecKey p) (claimRecKey q) = true))

/-- Claim-side final ordering for C2: the stable ascending sort by the
claim's key. -/
def sortClaimC2 (l : List Rec) : List Rec := List.insertionSort claimKeyLe l

/-! ### The `"all"` branch of `/search/compact` (lines 122-144) -/

/-- All upstream inputs consumed by the `"all"` branch: the Springer API key
and one response per leg (plus the second PubMed response for the dependent
efetch call). -/
structure AllEnv where
  springerKey : Option String
  springer : SpringerResp
  crossref : CrossrefResp
  doaj : DoajResp
  openalex : OpenAlexResp
  arxiv : ArxivResp
  pubmed : PubmedEnv

/-- Embedding of `search_compact` for `source == "all"`: the six extractors
run sequentially and their outputs are concatenated in the fixed order
springer, crossref, doaj, openalex, arxiv, pubmed; the first raised
`HTTPException` aborts the whole aggregate; the concatenation is
deduplicated and sorted. -/
def search_compact_all (env : AllEnv) : Except HErr (List Rec) :=
  match _compact_springer env.springerKey env.springer with
  | .error e => .error e
  | .ok a =>
    match _compact_crossref env.crossref with
    | .error e => .error e
    | .ok b =>
      match _compact_doaj env.doaj with
      | .error e => .error e
      | .ok c =>
        match _compact_openalex env.openalex with
        | .error e => .error e
        | .ok d =>
          match _compact_arxiv env.arxiv with
          | .error e => .error e
          | .ok ex =>
            match _compact_pubmed env.pubmed with
            | .error e => .error e
            | .ok f => .ok (dedupAndSort (a ++ b ++ c ++ d ++ ex ++ f))

/-! ### Claim-side canonicalizations for C3 and C4 -/

/-- Removal of every left-to-right non-overlapping occurrence of a nonempty
pattern, written directly by well-founded recursion (used to state the
amended C4 claim independently of the fuelled scanner embedded from the
source). -/
def removeAllWF (pat : List Char) : List Char → List Char
  | [] => []
  | c :: cs =>
    if h : pat ≠ [] ∧ pat.isPrefixOf (c :: cs) then
      removeAllWF pat (List.drop pat.length (c :: cs))
    else
      c :: removeAllWF pat cs
termination_by l => l.length
decreasing_by
  · have h1 : pat ≠ [] := h.1
    have h2 : 1 ≤ pat.length := by
      cases pat with
      | nil => simp at h1
      | cons p ps => simp
    simp only [List.length_drop, List.length_cons]
    omega
  · simp

/-- The canonicalization described by the amended claim C4: null/empty to
null, otherwise trim, lower-case, then remove every occurrence of the
literal `https://doi.org/` and then of `http://doi.org/`. -/
def normDoiAmended : Option String → Option String
  | none => none
  | some s =>
    if s = "" then none
    else some ⟨removeAllWF patHttp.data (removeAllWF patHttps.data (lowerL (stripL s.data)))⟩

/-- The canonicalization claim C4 describes, taken at its word: null/empty to
null; otherwise the trimmed input has a `doi.org` prefix stripped only on a
case-sensitive exact match at the start of the string, and the result is
lower-cased. -/
def normDoiClaimC4 : Option String → Option String
  | none => none
  | some s =>
    if s = "" then none
    else
      let t := stripL s.data
      let t' :=
        if patHttps.data.isPrefixOf t then List.drop patHttps.data.length t
        else if patHttp.data.isPrefixOf t then List.drop patHttp.data.length t
        else t
      some ⟨lowerL t'⟩

/-! ### Concrete inputs used by witnesses and counterexamples -/

/-- A record with a DOI and the integer date `0` (as OpenAlex can produce:
`publication_year` is an integer passed through unchanged). -/
def rC2a : Rec := ⟨none, some "10.1/a", none, none, some (JVal.i 0), none, "openalex"⟩

/-- A record with a DOI and the string date `"!"`. -/
def rC2b : Rec := ⟨none, some "10.1/b", none, none, some (JVal.s "!"), none, "crossref"⟩

/-- A record whose stored `doi` is the empty string, with a URL. -/
def rC10a : Rec := ⟨none, some "", some "http://x/1", none, none, none, "doaj"⟩

/-- A second empty-DOI record whose URL differs from `rC10a` only in case
and surrounding whitespace. -/
def rC10b : Rec := ⟨some "t", some "", some "  HTTP://x/1 ", none, none, none, "pubmed"⟩

/-- A Springer item carrying an `openAccess` value. -/
def sprIt : SpringerItem :=
  ⟨some "T", some "10.1/s", some [⟨some "http://s/1"⟩], some "J", some "2021-01-01", none,
    some true⟩

/-- A successful Springer response with one record. -/
def sprW : SpringerResp := ⟨200, "", some [sprIt]⟩

/-- A Crossref item with title/DOI/URL/venue and a two-part date. -/
def crIt : CrossrefItem :=
  ⟨some [some "T"], some "10.1/c", some "http://c/1", some [some "J"], some [[some 2021, some 3]]⟩

/-- A successful Crossref response with one item. -/
def crW : CrossrefResp := ⟨200, "", some [crIt]⟩

/-- A Crossref item with no fields at all (in particular no `issued`
date-parts). -/
def crItC5 : CrossrefItem := ⟨none, none, none, none, none⟩

/-- A DOAJ hit with a `doi`-typed identifier and one link. -/
def doajIt : DoajHit :=
  ⟨some ⟨some "T", some [⟨some "doi", some "10.1/d"⟩], some [⟨some "http://d/1"⟩],
    some ⟨some "J"⟩, some (JVal.s "2021")⟩⟩

/-- A successful DOAJ response with one hit. -/
def doajW : DoajResp := ⟨200, "", some [doajIt]⟩

/-- An OpenAlex work with a landing page, ids and an integer year. -/
def oaIt : OAWork :=
  ⟨some "T", some ⟨some "http://o/1", none⟩,
    some ⟨some "https://openalex.org/W1", some "https://doi.org/10.1/o"⟩,
    some ⟨some "J"⟩, some 2021⟩

/-- A successful OpenAlex response with one work. -/
def oaW : OpenAlexResp := ⟨200, "", some [oaIt]⟩

/-- An arXiv entry with namespaced lookups resolved and an `alternate` link. -/
def arxIt : ArxivEntry :=
  ⟨some (some "T"), none, some (some "http://arxiv.org/abs/1"), none,
    some (some "2021-01-01T00:00:00Z"), none, some (some "10.1/x"), some (some "JRef"),
    some ⟨some "http://arxiv.org/abs/1v1"⟩⟩

/-- A successful arXiv response with one namespaced entry. -/
def arxW : ArxivResp := ⟨200, "", [arxIt], []⟩

/-- A `PubmedArticle` with a `doi`-typed id among its ids and a PMID. -/
def pmIt : PubmedArticle :=
  ⟨some "T", some (some "J"), some (some "2021"),
    [⟨some "pubmed", some "123"⟩, ⟨some "doi", some "10.1/p"⟩], some (some "123")⟩

/-- A successful two-step PubMed exchange with one article. -/
def pmW : PubmedEnv := ⟨⟨200, "", some ["123"]⟩, ⟨200, "", [pmIt]⟩⟩

/-- A PubMed exchange whose ID search succeeds with an empty identifier list
while the (never to be consulted) efetch response is a failure. -/
def pmEmptyEnv : PubmedEnv := ⟨⟨200, "", some []⟩, ⟨500, "efetch down", []⟩⟩

/-- An `"all"`-mode environment in which every JSON leg succeeds (with empty
result lists) but the arXiv transport fails with status 500. -/
def envC6 : AllEnv :=
  { springerKey := some "k"
    springer := ⟨200, "", some []⟩
    crossref := ⟨200, "", some []⟩
    doaj := ⟨200, "", some []⟩
    openalex := ⟨200, "", some []⟩
    arxiv := ⟨500, "arxiv down", [], []⟩
    pubmed := ⟨⟨200, "", some []⟩, ⟨200, "", []⟩⟩ }

/-! ### Helper lemmas about the string primitives -/

/-- Scanning a string in which the pattern occurs nowhere changes nothing. -/
theorem replFuel_no_occ (pat : List Char) :
    ∀ (n : Nat) (l : List Char), hasOcc pat l = false → replFuel pat n l = l := by
  intro n
  induction n with
  | zero => intro l _; cases l <;> rfl
  | succ n ih =>
    intro l h
    cases l with
    | nil => rfl
    | cons c cs =>
      simp only [hasOcc, Bool.or_eq_false_iff] at h
      simp only [replFuel, h.1, Bool.false_eq_true, if_false]
      exact congrArg (c :: ·) (ih cs h.2)

/-- With enough fuel, the fuelled scanner embedded from `str.replace` agrees
with the direct well-founded removal. -/
theorem replFuel_eq_removeAll (pat : List Char) (hp : pat ≠ []) :
    ∀ (n : Nat) (l : List Char), l.length ≤ n → replFuel pat n l = removeAllWF pat l := by
  intro n
  induction n with
  | zero =>
    intro l hl
    have : l = [] := List.eq_nil_of_length_eq_zero (Nat.le_zero.mp hl)
    subst this
    simp [replFuel, removeAllWF]
  | succ n ih =>
    intro l hl
    cases l with
    | nil => simp [replFuel, removeAllWF]
    | cons c cs =>
      have hpl : 1 ≤ pat.length := by
        cases pat with
        | nil => simp at hp
        | cons p ps => simp
      by_cases hpre : pat.isPrefixOf (c :: cs) = true
      · have hlen : (List.drop pat.length (c :: cs)).length ≤ n := by
          simp only [List.length_drop, List.length_cons]
          simp only [List.length_cons] at hl
          omega
        rw [show replFuel pat (n + 1) (c :: cs)
              = replFuel pat n (List.drop pat.length (c :: cs)) by simp [replFuel, hpre]]
        rw [removeAllWF, dif_pos ⟨hp, hpre⟩]
        exact ih _ hlen
      · have hcs : cs.length ≤ n := by
          simp only [List.length_cons] at hl
          omega
        rw [show replFuel pat (n + 1) (c :: cs) = c :: replFuel pat n cs by simp [replFuel, hpre]]
        rw [removeAllWF, dif_neg (fun hc => hpre hc.2)]
        exact congrArg (c :: ·) (ih cs hcs)

/-- `str.replace(pat, "")` as removal of every occurrence (String level). -/
theorem pyReplaceS_eq_removeAll (t pat : String) (hp : pat.data ≠ []) :
    pyReplaceS t pat = ⟨removeAllWF pat.data t.data⟩ :=
  congrArg String.mk (replFuel_eq_removeAll pat.data hp t.data.length t.data (Nat.le_refl _))

/-- A string in which neither DOI URL form occurs, which is its own trim and
its own lower-casing, is a fixed point of `_norm_doi`. -/
theorem norm_doi_fix (y : String) (hy : y ≠ "")
    (hstrip : stripS y = y) (hlow : lowerS y = y)
    (h1 : hasOcc patHttps.data y.data = false) (h2 : hasOcc patHttp.data y.data = false) :
    _norm_doi (some y) = some y := by
  have e1 : pyReplaceS y patHttps = y := by
    show (⟨replFuel patHttps.data y.data.length y.data⟩ : String) = y
    rw [replFuel_no_occ patHttps.data y.data.length y.data h1]
  have e2 : pyReplaceS y patHttp = y := by
    show (⟨replFuel patHttp.data y.data.length y.data⟩ : String) = y
    rw [replFuel_no_occ patHttp.data y.data.length y.data h2]
  simp only [_norm_doi, if_neg hy, hstrip, hlow, e1, e2]

/-! ### Helper lemmas about the dedup pass -/

/-- The fold embedded from the Python loop, run from an arbitrary state,
produces the already-accumulated output followed by the recursive
presentation of the dedup pass. -/
theorem dedup_foldl :
    ∀ (l : List Rec) (sd su : List String) (acc : List Rec),
      (List.foldl dedupBody ⟨sd, su, acc⟩ l).dedup = acc ++ dedupSpecC1 sd su l := by
  intro l
  induction l with
  | nil => intro sd su acc; simp [dedupSpecC1]
  | cons it rest ih =>
    intro sd su acc
    rw [List.foldl_cons]
    cases hd : doiKeyOf it with
    | some d =>
      by_cases hm : d ∈ sd
      · simp [dedupBody, hd, hm, dedupSpecC1, ih]
      · simp [dedupBody, hd, hm, dedupSpecC1, ih]
    | none =>
      cases hu : urlKeyOf it with
      | some u =>
        by_cases hm : u ∈ su
        · simp [dedupBody, hd, hu, hm, dedupSpecC1, ih]
        · simp [dedupBody, hd, hu, hm, dedupSpecC1, ih]
      | none => simp [dedupBody, hd, hu, dedupSpecC1, ih]

/-- The recursive dedup only ever drops records: its output is a sublist of
its input. -/
theorem dedupSpecC1_sublist :
    ∀ (l : List Rec) (sd su : List String), List.Sublist (dedupSpecC1 sd su l) l := by
  intro l
  induction l with
  | nil => intro sd su; simp [dedupSpecC1]
  | cons it rest ih =>
    intro sd su
    cases hd : doiKeyOf it with
    | some d =>
      by_cases hm : d ∈ sd
      · simp only [dedupSpecC1, hd, if_pos hm]
        exact (ih sd su).cons it
      · simp only [dedupSpecC1, hd, if_neg hm]
        exact (ih (d :: sd) su).cons₂ it
    | none =>
      cases hu : urlKeyOf it with
      | some u =>
        by_cases hm : u ∈ su
        · simp only [dedupSpecC1, hd, hu, if_pos hm]
          exact (ih sd su).cons it
        · simp only [dedupSpecC1, hd, hu, if_neg hm]
          exact (ih sd (u :: su)).cons₂ it
      | none =>
        simp only [dedupSpecC1, hd, hu]
        exact (ih sd su).cons₂ it

/-- The fold-based pass equals the recursive presentation (both from empty
state). -/
theorem dedupPass_eq_spec (agg : List Rec) : dedupPass agg = dedupSpecC1 [] [] agg := by
  have h := dedup_foldl agg [] [] []
  simpa [dedupPass] using h

/-! ### Helper lemmas about the sort order -/

/-- Comparison of a list with itself is `eq`. -/
theorem cmpL_self : ∀ l : List Char, cmpL l l = Ordering.eq := by
  intro l
  induction l with
  | nil => rfl
  | cons c cs ih => simp [cmpL, Nat.lt_irrefl, ih]

/-- Swapping the arguments exchanges `gt` and `lt`. -/
theorem cmpL_gt_iff_lt : ∀ x y : List Char, cmpL x y = Ordering.gt ↔ cmpL y x = Ordering.lt := by
  intro x
  induction x with
  | nil => intro y; cases y <;> simp [cmpL]
  | cons a as ih =>
    intro y
    cases y with
    | nil => simp [cmpL]
    | cons b bs =>
      by_cases h1 : a.toNat < b.toNat
      · have h2 : ¬ b.toNat < a.toNat := by omega
        simp [cmpL, h1, h2]
      · by_cases h2 : b.toNat < a.toNat
        · simp [cmpL, h1, h2]
        · simp [cmpL, h1, h2, ih bs]

/-- The comparison order is transitive on the `≤` (not-`gt`) side. -/
theorem cmpL_le_trans :
    ∀ x y z : List Char,
      cmpL x y ≠ Ordering.gt → cmpL y z ≠ Ordering.gt → cmpL x z ≠ Ordering.gt := by
  intro x
  induction x with
  | nil => intro y z _ _; cases z <;> simp [cmpL]
  | cons a as ih =>
    intro y z h1 h2
    cases y with
    | nil => simp [cmpL] at h1
    | cons b bs =>
      cases z with
      | nil => simp [cmpL] at h2
      | cons c cs =>
        by_cases hab : a.toNat < b.toNat
        · by_cases hbc : b.toNat < c.toNat
          · have hac : a.toNat < c.toNat := by omega
            simp [cmpL, hac]
          · by_cases hcb : c.toNat < b.toNat
            · simp [cmpL, hbc, hcb] at h2
            · have hac : a.toNat < c.toNat := by omega
              simp [cmpL, hac]
        · by_cases hba : b.toNat < a.toNat
          · simp [cmpL, hab, hba] at h1
          · by_cases hbc : b.toNat < c.toNat
            · have hac : a.toNat < c.toNat := by omega
              simp [cmpL, hac]
            · by_cases hcb : c.toNat < b.toNat
              · simp [cmpL, hbc, hcb] at h2
              · have hac1 : ¬ a.toNat < c.toNat := by omega
                have hac2 : ¬ c.toNat < a.toNat := by omega
                simp only [cmpL, if_neg hab, if_neg hba] at h1
                simp only [cmpL, if_neg hbc, if_neg hcb] at h2
                simp only [cmpL, if_neg hac1, if_neg hac2]
                exact ih bs cs h1 h2

/-- Characterization of string `≤` through the comparison. -/
theorem strLeB_eq_true_iff (x y : String) :
    strLeB x y = true ↔ cmpL x.data y.data ≠ Ordering.gt := by
  unfold strLeB
  rcases cmpL x.data y.data <;> simp

/-- String `≤` is reflexive. -/
theorem strLeB_self (x : String) : strLeB x x = true := by
  rw [strLeB_eq_true_iff, cmpL_self]
  decide

/-- String `≤` is total. -/
theorem strLeB_total (x y : String) : strLeB x y = true ∨ strLeB y x = true := by
  by_cases h : cmpL x.data y.data = Ordering.gt
  · right
    rw [strLeB_eq_true_iff, (cmpL_gt_iff_lt x.data y.data).mp h]
    decide
  · left
    rw [strLeB_eq_true_iff]
    exact h

/-- String `≤` is transitive. -/
theorem strLeB_trans (x y z : String)
    (h1 : strLeB x y = true) (h2 : strLeB y z = true) : strLeB x z = true := by
  rw [strLeB_eq_true_iff] at h1 h2 ⊢
  exact cmpL_le_trans _ _ _ h1 h2

/-- The sort relation of line 143 is total. -/
theorem keyLe_total : ∀ a b : Rec, keyLe a b ∨ keyLe b a := by
  intro a b
  cases hxa : (recKey a).1 <;> cases hxb : (recKey b).1 <;>
    rcases strLeB_total (recKey a).2 (recKey b).2 with h | h <;>
      simp [keyLe, pairLeB, bLtB, hxa, hxb, h]

/-- The sort relation of line 143 is transitive. -/
theorem keyLe_trans : ∀ a b c : Rec, keyLe a b → keyLe b c → keyLe a c := by
  intro a b c h1 h2
  simp only [keyLe, pairLeB, bLtB] at h1 h2 ⊢
  cases hxa : (recKey a).1 <;> cases hxb : (recKey b).1 <;> cases hxc : (recKey c).1 <;>
      simp [hxa, hxb, hxc] at h1 h2 ⊢ <;>
    exact strLeB_trans _ _ _ h1 h2

/-- Records with equal keys are related (reflexivity on key classes). -/
theorem keyLe_of_key_eq {a b : Rec} (h : recKey a = recKey b) : keyLe a b := by
  unfold keyLe
  rw [h]
  simp [pairLeB, bLtB, strLeB_self]

/-- Inserting a record of key `k` into a list puts it in front of every other
record of key `k` (no record of equal key can strictly precede it). -/
theorem filter_orderedInsert_key (k : Bool × String) (a : Rec) (ha : recKey a = k) :
    ∀ l : List Rec,
      (List.orderedInsert keyLe a l).filter (fun r => decide (recKey r = k)) =
        a :: l.filter (fun r => decide (recKey r = k)) := by
  intro l
  induction l with
  | nil => simp [ha]
  | cons b t ih =>
    by_cases hle : keyLe a b
    · simp [List.orderedInsert, if_pos hle, List.filter_cons, ha]
    · have hb : ¬ (recKey b = k) := fun hbk =>
        hle (keyLe_of_key_eq (ha.trans hbk.symm))
      simp [List.orderedInsert, if_neg hle, List.filter_cons, hb, ih]

/-- Inserting a record of a different key leaves the key-`k` records
untouched. -/
theorem filter_orderedInsert_key_neg (k : Bool × String) (a : Rec) (ha : ¬ (recKey a = k)) :
    ∀ l : List Rec,
      (List.orderedInsert keyLe a l).filter (fun r => decide (recKey r = k)) =
        l.filter (fun r => decide (recKey r = k)) := by
  intro l
  induction l with
  | nil => simp [ha]
  | cons b t ih =>
    by_cases hle : keyLe a b
    · simp [List.orderedInsert, if_pos hle, List.filter_cons, ha]
    · simp [List.orderedInsert, if_neg hle, List.filter_cons, ih]

/-- Stability of the final sort: for every key value, the key's records
appear in the output exactly as they appeared in the input. -/
theorem filter_insertionSort_key (k : Bool × String) :
    ∀ l : List Rec,
      (List.insertionSort keyLe l).filter (fun r => decide (recKey r = k)) =
        l.filter (fun r => decide (recKey r = k)) := by
  intro l
  induction l with
  | nil => rfl
  | cons a t ih =>
    by_cases ha : recKey a = k
    · simp only [List.insertionSort]
      rw [filter_orderedInsert_key k a ha, ih]
      simp [List.filter_cons, ha]
    · simp only [List.insertionSort]
      rw [filter_orderedInsert_key_neg k a ha, ih]
      simp [List.filter_cons, ha]

/-! ### Success inversions for the extractors -/

/-- A successful Springer extraction implies a 200 transport status. -/
theorem springer_ok_status {key : Option String} {r : SpringerResp} {l : List Rec}
    (h : _compact_springer key r = .ok l) : r.status = 200 := by
  unfold _compact_springer at h
  cases hk : pyTruthyS key with
  | none => rw [hk] at h; cases h
  | some s =>
    rw [hk] at h
    by_cases hst : r.status = 200
    · exact hst
    · rw [if_neg hst] at h; cases h

/-- A successful Crossref extraction implies a 200 transport status. -/
theorem crossref_ok_status {r : CrossrefResp} {l : List Rec}
    (h : _compact_crossref r = .ok l) : r.status = 200 := by
  unfold _compact_crossref at h
  by_cases hst : r.status = 200
  · exact hst
  · rw [if_neg hst] at h; cases h

/-- A successful DOAJ extraction implies a 200 transport status. -/
theorem doaj_ok_status {r : DoajResp} {l : List Rec}
    (h : _compact_doaj r = .ok l) : r.status = 200 := by
  unfold _compact_doaj at h
  by_cases hst : r.status = 200
  · exact hst
  · rw [if_neg hst] at h; cases h

/-- A successful OpenAlex extraction implies a 200 transport status. -/
theorem openalex_ok_status {r : OpenAlexResp} {l : List Rec}
    (h : _compact_openalex r = .ok l) : r.status = 200 := by
  unfold _compact_openalex at h
  by_cases hst : r.status = 200
  · exact hst
  · rw [if_neg hst] at h; cases h

/-- A successful arXiv extraction implies a 200 transport status. -/
theorem arxiv_ok_status {r : ArxivResp} {l : List Rec}
    (h : _compact_arxiv r = .ok l) : r.status = 200 := by
  unfold _compact_arxiv at h
  by_cases hst : r.status = 200
  · exact hst
  · rw [if_neg hst] at h; cases h

/-- A successful PubMed extraction implies a 200 esearch status and, when the
identifier list is nonempty, a 200 efetch status. -/
theorem pubmed_ok_status {env : PubmedEnv} {l : List Rec}
    (h : _compact_pubmed env = .ok l) :
    env.esearch.status = 200 ∧
      (env.esearch.idlist.getD [] ≠ [] → env.efetch.status = 200) := by
  unfold _compact_pubmed runCompactPubmed at h
  by_cases hes : env.esearch.status = 200
  · refine ⟨hes, fun hids => ?_⟩
    rw [if_pos hes] at h
    rw [if_neg hids] at h
    by_cases hef : env.efetch.status = 200
    · exact hef
    · rw [if_neg hef] at h; cases h
  · rw [if_neg hes] at h; cases h

/-- A successful `"all"` aggregate implies every leg saw a 200 status (with
the efetch status only forced when the identifier list was nonempty). -/
theorem compact_all_ok_statuses {env : AllEnv} {l : List Rec}
    (h : search_compact_all env = .ok l) :
    env.springer.status = 200 ∧ env.crossref.status = 200 ∧ env.doaj.status = 200 ∧
      env.openalex.status = 200 ∧ env.arxiv.status = 200 ∧
      env.pubmed.esearch.status = 200 ∧
      (env.pubmed.esearch.idlist.getD [] ≠ [] → env.pubmed.efetch.status = 200) := by
  unfold search_compact_all at h
  cases h1 : _compact_springer env.springerKey env.springer with
  | error e => simp only [h1] at h; exact Except.noConfusion h
  | ok a =>
    simp only [h1] at h
    cases h2 : _compact_crossref env.crossref with
    | error e => simp only [h2] at h; exact Except.noConfusion h
    | ok b =>
      simp only [h2] at h
      cases h3 : _compact_doaj env.doaj with
      | error e => simp only [h3] at h; exact Except.noConfusion h
      | ok c =>
        simp only [h3] at h
        cases h4 : _compact_openalex env.openalex with
        | error e => simp only [h4] at h; exact Except.noConfusion h
        | ok d =>
          simp only [h4] at h
          cases h5 : _compact_arxiv env.arxiv with
          | error e => simp only [h5] at h; exact Except.noConfusion h
          | ok ex =>
            simp only [h5] at h
            cases h6 : _compact_pubmed env.pubmed with
            | error e => simp only [h6] at h; exact Except.noConfusion h
            | ok f =>
              exact ⟨springer_ok_status h1, crossref_ok_status h2, doaj_ok_status h3,
                openalex_ok_status h4, arxiv_ok_status h5, (pubmed_ok_status h6).1,
                (pubmed_ok_status h6).2⟩

/-! ### Claim theorems -/

/-- C1: the deduplication pass of the `"all"` compact mode, run over any
aggregated sequence in encounter order, matches the spec's description
exactly: a record with a canonical (truthy, re-normalized) DOI is dropped
precisely when that DOI was already seen and otherwise kept with the DOI
marked seen; a record without one is dropped precisely when its non-null
lower-cased/trimmed URL was already seen and otherwise kept with the URL
marked seen if present; records with neither key are always kept.  The
statement equates the fold embedded from the Python loop with the
claim-side recursion `dedupSpecC1` started from empty seen-sets; first
encountered records with a given key therefore survive and later ones are
dropped. -/
theorem compact_dedup_matches_spec :
    ∀ agg : List Rec, dedupPass agg = dedupSpecC1 [] [] agg := by
  intro agg
  exact dedupPass_eq_spec agg

/-- C2 (counterexample): the claim's date coercion (`str(date)` with only
null mapped to `""`) disagrees with the code's key (`str(date or "")`) on
the falsy integer date `0`.  With records `rC2a` (date `0`) and `rC2b`
(date `"!"`), the code sorts `rC2a` first (key `""` < `"!"`), while the
stable sort by the claim's key sorts `rC2b` first (`"!"` < `"0"`), so the
claimed ordering is not the code's ordering. -/
theorem compact_sort_claim_cex :
    compactAllSort [rC2a, rC2b] = [rC2a, rC2b] ∧
    sortClaimC2 [rC2a, rC2b] = [rC2b, rC2a] ∧
    ([rC2a, rC2b] : List Rec) ≠ [rC2b, rC2a] := by
  refine ⟨by decide, by decide, by decide⟩

/-- C2 (amended): the final ordering is a stable ascending sort by the
two-part key (has-no-DOI, then `str(date or "")`, i.e. the textual date with
null — and any other falsy date value such as the integer `0` or the empty
string — coerced to `""`).  Stated as: the output is a permutation of the
input, it is sorted under the key order `keyLe` (so all DOI-bearing records
precede all non-DOI records and, within each group, textual dates ascend
with coerced-empty dates first), and for every key value the records of that
key keep their relative input order (stability). -/
theorem compact_sort_amended :
    ∀ l : List Rec,
      List.Perm (compactAllSort l) l ∧
      List.Sorted keyLe (compactAllSort l) ∧
      ∀ k : Bool × String,
        (compactAllSort l).filter (fun r => decide (recKey r = k)) =
          l.filter (fun r => decide (recKey r = k)) := by
  intro l
  refine ⟨List.perm_insertionSort keyLe l, ?_, fun k => filter_insertionSort_key k l⟩
  haveI : IsTotal Rec keyLe := ⟨keyLe_total⟩
  haveI : IsTrans Rec keyLe := ⟨keyLe_trans⟩
  exact List.sorted_insertionSort keyLe l

/-- C3 (counterexample): `_norm_doi` is not idempotent.  On the input
`"https://doi.org/"` it returns `some ""` (the prefix is removed and the
empty string remains), but a second application maps `""`, which is falsy,
to `none`. -/
theorem norm_doi_idem_cex :
    _norm_doi (_norm_doi (some patHttps)) ≠ _norm_doi (some patHttps) := by decide

/-- C3 (amended): `canon(None) = None`, and idempotence holds for every
input whose canonical form is nonempty, already trimmed and lower-case, and
free of any occurrence of either `doi.org` prefix form; it fails in general
(see the counterexample, where the canonical form is empty). -/
theorem norm_doi_idem_amended :
    _norm_doi none = none ∧
    ∀ (x : Option String) (y : String), _norm_doi x = some y → y ≠ "" →
      stripS y = y → lowerS y = y →
      hasOcc patHttps.data y.data = false → hasOcc patHttp.data y.data = false →
      _norm_doi (_norm_doi x) = _norm_doi x := by
  refine ⟨rfl, ?_⟩
  intro x y hxy hy hstrip hlow h1 h2
  rw [hxy]
  exact norm_doi_fix y hy hstrip hlow h1 h2

/-- C3 (witness): the amended idempotence applied to the concrete DOI
`10.123/x`, whose canonical form satisfies all the side conditions. -/
theorem norm_doi_idem_amended_w :
    _norm_doi (_norm_doi (some "10.123/x")) = _norm_doi (some "10.123/x") :=
  norm_doi_idem_amended.2 (some "10.123/x") "10.123/x" (by decide) (by decide) (by decide)
    (by decide) (by decide) (by decide)

/-- C4 (counterexample): the code lower-cases before removing the prefixes
and removes every occurrence, not only a case-sensitively matching leading
one.  On `"HTTPS://DOI.ORG/10.1/X"` the claimed canonicalization
(`normDoiClaimC4`) keeps the mismatched-case prefix while the code strips
it; on `"a https://doi.org/b"` the claimed canonicalization keeps the
non-leading occurrence while the code removes it. -/
theorem norm_doi_claim_cex :
    _norm_doi (some "HTTPS://DOI.ORG/10.1/X") = some "10.1/x" ∧
    normDoiClaimC4 (some "HTTPS://DOI.ORG/10.1/X") = some "https://doi.org/10.1/x" ∧
    _norm_doi (some "a https://doi.org/b") = some "a b" ∧
    normDoiClaimC4 (some "a https://doi.org/b") = some "a https://doi.org/b" := by
  refine ⟨by decide, by decide, by decide, by decide⟩

/-- C4 (amended): null or empty input yields null; otherwise the input is
trimmed, lower-cased, and then every left-to-right non-overlapping
occurrence of the literal `https://doi.org/` and then of `http://doi.org/`
is removed — so a `doi.org` prefix in mismatched case IS stripped (the
lower-casing happens first), and occurrences are removed anywhere in the
string, not only at the start.  Stated as equality with the independently
written `normDoiAmended`. -/
theorem norm_doi_amended_eq : ∀ x : Option String, _norm_doi x = normDoiAmended x := by
  intro x
  cases x with
  | none => rfl
  | some s =>
    by_cases hs : s = ""
    · simp [_norm_doi, normDoiAmended, hs]
    · have h1 : patHttps.data ≠ [] := by decide
      have h2 : patHttp.data ≠ [] := by decide
      simp only [_norm_doi, normDoiAmended, if_neg hs]
      rw [pyReplaceS_eq_removeAll _ _ h2, pyReplaceS_eq_removeAll _ _ h1]
      rfl

/-- C5 (counterexample): a Crossref item with absent `date-parts` does not
get a null date: `(... or [[None]])[0]` is the truthy `[None]`, whose
non-null components join to the empty string, so the record's `date` is the
empty string, not `None`. -/
theorem crossref_date_absent_cex :
    (crossrefRec crItC5).date = some (JVal.s "") ∧
    (crossrefRec crItC5).date ≠ none ∧
    ymdM none = some "" := by
  refine ⟨by decide, by decide, by decide⟩

/-- C5 (amended): the Crossref date is the non-null integer components of
the first `date-parts` entry joined with `-`; `[[2021,3,15]]` yields
`"2021-3-15"`, `[[2021]]` yields `"2021"`, `[[]]` yields `None`, but an
absent (or empty) `date-parts` yields the empty string `""`, not `None`. -/
theorem crossref_ymd_amended :
    (∀ (dp : List (Option Int)) (rest : List (List (Option Int))), dp ≠ [] →
        ymdM (some (dp :: rest)) = some (joinDash ((dp.filterMap id).map intStr))) ∧
    ymdM (some [[some 2021, some 3, some 15]]) = some "2021-3-15" ∧
    ymdM (some [[some 2021]]) = some "2021" ∧
    ymdM (some [[]]) = none ∧
    ymdM none = some "" ∧
    ymdM (some []) = some "" ∧
    (∀ it : CrossrefItem, (crossrefRec it).date = (ymdM it.dateParts).map JVal.s) := by
  refine ⟨?_, by decide, by decide, by decide, by decide, by decide, fun it => rfl⟩
  intro dp rest hdp
  simp [ymdM, hdp]

/-- C5 (witness): the general joined-components clause applied to the
concrete one-part entry `[5]`. -/
theorem crossref_ymd_amended_w :
    ymdM (some [[some 5]]) = some (joinDash (([some (5 : Int)].filterMap id).map intStr)) :=
  crossref_ymd_amended.1 [some 5] [] (by decide)

/-- C6 (counterexample): in `"all"` compact mode an arXiv transport failure
does NOT degrade gracefully: with every JSON leg succeeding and the arXiv
leg returning status 500, the whole aggregate aborts with that error
instead of completing. -/
theorem compact_all_arxiv_abort :
    search_compact_all envC6 = .error ⟨500, "arxiv down"⟩ := rfl

/-- C6 (amended): in `"all"` compact mode there is no partial-failure
tolerance at all: a non-200 status on any leg — springer, crossref, doaj,
openalex, arxiv, or pubmed (esearch, or efetch when the identifier list is
nonempty) — aborts the entire aggregate.  The graceful arXiv/PubMed
degradation described by the claim exists only in the raw `/search` `"all"`
branch, not in the compact one. -/
theorem compact_all_any_leg_aborts (env : AllEnv)
    (h : env.springer.status ≠ 200 ∨ env.crossref.status ≠ 200 ∨ env.doaj.status ≠ 200 ∨
         env.openalex.status ≠ 200 ∨ env.arxiv.status ≠ 200 ∨
         env.pubmed.esearch.status ≠ 200 ∨
         (env.pubmed.esearch.idlist.getD [] ≠ [] ∧ env.pubmed.efetch.status ≠ 200)) :
    ∃ e, search_compact_all env = .error e := by
  cases hres : search_compact_all env with
  | error e => exact ⟨e, rfl⟩
  | ok l =>
    exfalso
    obtain ⟨s1, s2, s3, s4, s5, s6, s7⟩ := compact_all_ok_statuses hres
    rcases h with hh | hh | hh | hh | hh | hh | hh
    exacts [hh s1, hh s2, hh s3, hh s4, hh s5, hh s6, hh.2 (s7 hh.1)]

/-- C6 (witness): the amended abort property applied to the concrete
environment whose arXiv leg fails. -/
theorem compact_all_any_leg_aborts_w : ∃ e, search_compact_all envC6 = .error e :=
  compact_all_any_leg_aborts envC6
    (Or.inr (Or.inr (Or.inr (Or.inr (Or.inl (by decide))))))

/-- C7: whenever the PubMed ID search succeeds with an empty identifier
list, the extractor returns an empty result list and the second upstream
call (efetch) is not made — the call trace is exactly the esearch call. -/
theorem pubmed_empty_idlist (env : PubmedEnv)
    (h200 : env.esearch.status = 200)
    (hids : env.esearch.idlist.getD [] = []) :
    (runCompactPubmed env).result = .ok [] ∧
    (runCompactPubmed env).calls = ["pubmed_esearch"] := by
  simp [runCompactPubmed, h200, hids]

/-- C7 (witness): the empty-idlist property on a concrete exchange whose
(unconsulted) efetch response is even a failure. -/
theorem pubmed_empty_idlist_w :
    (runCompactPubmed pmEmptyEnv).result = .ok [] ∧
    (runCompactPubmed pmEmptyEnv).calls = ["pubmed_esearch"] :=
  pubmed_empty_idlist pmEmptyEnv rfl rfl

/-- C8 (counterexample): Springer compact records do not consist of exactly
the six claimed fields: the extractor also emits an `oa` key (here with
value `openAccess = true`), a seventh field. -/
theorem springer_extra_field_cex :
    _compact_springer (some "k") sprW = .ok [springerRec sprIt] ∧
    (springerRec sprIt).oa = some (some true) := ⟨rfl, rfl⟩

/-- C8 (amended): every record produced by the Crossref, DOAJ, OpenAlex,
arXiv and PubMed compact extractors consists of exactly the six fields
(title, doi, url, journal, date, source; modelled by the absence of the
`oa` key) with `source` equal to the extractor's fixed tag; Springer
records carry the same six fields plus a seventh `oa` field, with `source`
equal to `springer_openaccess`. -/
theorem compact_schema_amended :
    (∀ (r : CrossrefResp) (l : List Rec) (x : Rec),
        _compact_crossref r = .ok l → x ∈ l → x.oa = none ∧ x.source = "crossref") ∧
    (∀ (r : DoajResp) (l : List Rec) (x : Rec),
        _compact_doaj r = .ok l → x ∈ l → x.oa = none ∧ x.source = "doaj") ∧
    (∀ (r : OpenAlexResp) (l : List Rec) (x : Rec),
        _compact_openalex r = .ok l → x ∈ l → x.oa = none ∧ x.source = "openalex") ∧
    (∀ (r : ArxivResp) (l : List Rec) (x : Rec),
        _compact_arxiv r = .ok l → x ∈ l → x.oa = none ∧ x.source = "arxiv") ∧
    (∀ (env : PubmedEnv) (l : List Rec) (x : Rec),
        _compact_pubmed env = .ok l → x ∈ l → x.oa = none ∧ x.source = "pubmed") ∧
    (∀ (key : Option String) (r : SpringerResp) (l : List Rec) (x : Rec),
        _compact_springer key r = .ok l → x ∈ l →
          x.oa ≠ none ∧ x.source = "springer_openaccess") := by
  refine ⟨?_, ?_, ?_, ?_, ?_, ?_⟩
  · intro r l x h hx
    have hst := crossref_ok_status h
    simp [_compact_crossref, hst] at h
    subst h
    rcases List.mem_map.mp hx with ⟨it, _, rfl⟩
    exact ⟨rfl, rfl⟩
  · intro r l x h hx
    have hst := doaj_ok_status h
    simp [_compact_doaj, hst] at h
    subst h
    rcases List.mem_map.mp hx with ⟨it, _, rfl⟩
    exact ⟨rfl, rfl⟩
  · intro r l x h hx
    have hst := openalex_ok_status h
    simp [_compact_openalex, hst] at h
    subst h
    rcases List.mem_map.mp hx with ⟨it, _, rfl⟩
    exact ⟨rfl, rfl⟩
  · intro r l x h hx
    have hst := arxiv_ok_status h
    simp [_compact_arxiv, hst] at h
    subst h
    rcases List.mem_map.mp hx with ⟨it, _, rfl⟩
    exact ⟨rfl, rfl⟩
  · intro env l x h hx
    obtain ⟨hes, hef⟩ := pubmed_ok_status h
    by_cases hids : env.esearch.idlist.getD [] = []
    · simp [_compact_pubmed, runCompactPubmed, hes, hids] at h
      subst h
      simp at hx
    · simp [_compact_pubmed, runCompactPubmed, hes, hids, hef hids] at h
      subst h
      rcases List.mem_map.mp hx with ⟨a, _, rfl⟩
      exact ⟨rfl, rfl⟩
  · intro key r l x h hx
    have hst := springer_ok_status h
    unfold _compact_springer at h
    cases hk : pyTruthyS key with
    | none => rw [hk] at h; cases h
    | some s =>
      rw [hk] at h
      rw [if_pos hst] at h
      simp at h
      subst h
      rcases List.mem_map.mp hx with ⟨it, _, rfl⟩
      refine ⟨by simp [springerRec], rfl⟩

/-- C8 (witness): the amended schema property instantiated on one concrete
successful response per extractor. -/
theorem compact_schema_amended_w :
    ((crossrefRec crIt).oa = none ∧ (crossrefRec crIt).source = "crossref") ∧
    ((doajRec doajIt).oa = none ∧ (doajRec doajIt).source = "doaj") ∧
    ((openalexRec oaIt).oa = none ∧ (openalexRec oaIt).source = "openalex") ∧
    ((arxivRec arxIt).oa = none ∧ (arxivRec arxIt).source = "arxiv") ∧
    ((pubmedRec pmIt).oa = none ∧ (pubmedRec pmIt).source = "pubmed") ∧
    ((springerRec sprIt).oa ≠ none ∧ (springerRec sprIt).source = "springer_openaccess") := by
  refine ⟨?_, ?_, ?_, ?_, ?_, ?_⟩
  · exact compact_schema_amended.1 crW [crossrefRec crIt] (crossrefRec crIt) rfl (by simp)
  · exact compact_schema_amended.2.1 doajW [doajRec doajIt] (doajRec doajIt) rfl (by simp)
  · exact compact_schema_amended.2.2.1 oaW [openalexRec oaIt] (openalexRec oaIt) rfl (by simp)
  · exact compact_schema_amended.2.2.2.1 arxW [arxivRec arxIt] (arxivRec arxIt) rfl (by simp)
  · exact compact_schema_amended.2.2.2.2.1 pmW [pubmedRec pmIt] (pubmedRec pmIt) rfl (by simp)
  · exact compact_schema_amended.2.2.2.2.2 (some "k") sprW [springerRec sprIt]
      (springerRec sprIt) rfl (by simp)

/-- C9: the dedup-and-sort pass never modifies record contents: the dedup
output is a sublist of the aggregated input (each survivor is one of the
input records, in encounter order), and the sorted output is a permutation
of that sublist — so the final output is a permutation of a subsequence of
the input, with every record field-for-field equal to an input record. -/
theorem compact_pass_frame :
    ∀ agg : List Rec,
      List.Sublist (dedupPass agg) agg ∧
      List.Perm (dedupAndSort agg) (dedupPass agg) := by
  intro agg
  constructor
  · rw [dedupPass_eq_spec agg]
    exact dedupSpecC1_sublist agg [] []
  · exact List.perm_insertionSort keyLe (dedupPass agg)

/-- C10: a record whose stored `doi` field is the empty string — reachable,
since `_norm_doi` maps a bare `https://doi.org/` to `some ""` — is
classified as having no DOI by the dedup pass (its re-normalized key is
falsy, so it is keyed by URL), while the sort key treats it as DOI-bearing
(`doi is None` is false).  The concrete pair `rC10a`/`rC10b` shows such a
record being dropped as a URL duplicate. -/
theorem empty_doi_classification :
    _norm_doi (some patHttps) = some "" ∧
    (∀ r : Rec, r.doi = some "" → doiKeyOf r = none ∧ (recKey r).1 = false) ∧
    dedupPass [rC10a, rC10b] = [rC10a] := by
  refine ⟨by decide, ?_, by decide⟩
  intro r hr
  constructor
  · simp [doiKeyOf, hr, _norm_doi, pyTruthyS]
  · simp [recKey, hr]

/-- C10 (witness): the classification applied to the concrete record
`rC10a`, whose stored `doi` is `""`. -/
theorem empty_doi_classification_w :
    doiKeyOf rC10a = none ∧ (recKey rC10a).1 = false :=
  empty_doi_classification.2.1 rC10a rfl

end MultiSG
